import Mathlib

/-
Verification development for the rail_plotting package.

The definitions below are a shallow embedding of the Python sources
src/rail/plotting/{control,plotter,plotter_factory,dataset_factory,
pz_plotters}.py.  Python dicts are embedded as insertion-ordered
association lists over string keys, yaml-loaded values as the inductive
type PyData, and every `raise` site of the embedded code as a dedicated
constructor of PyErr carrying exactly the data the source interpolates
into its message.  Fallible code returns Except PyErr.
-/

set_option linter.unusedVariables false

namespace RailPlotting

/-- Python values appearing in yaml-loaded configuration data and in the
inputs handed to plotters.  Numpy arrays are abstracted as lists of
integers (their numeric content plays no role in the embedded logic). -/
inductive PyData where
  | pyStr (s : String)
  | pyInt (n : Int)
  | pyFloat (lit : String)
  | pyBool (b : Bool)
  | pyNone
  | pyList (xs : List PyData)
  | pyDict (kvs : List (String × PyData))
  | pyArray (xs : List Int)

/-- Runtime type tags for PyData, used to embed isinstance checks. -/
inductive PyTy where
  | strT
  | intT
  | floatT
  | boolT
  | noneT
  | listT
  | dictT
  | arrayT
deriving DecidableEq

/-- Type tag of a value, embedding Python type(x).  Float values carry
only their source literal; their numeric content is not modelled. -/
def PyData.typeOf : PyData → PyTy
  | .pyStr _ => .strT
  | .pyInt _ => .intT
  | .pyFloat _ => .floatT
  | .pyBool _ => .boolT
  | .pyNone => .noneT
  | .pyList _ => .listT
  | .pyDict _ => .dictT
  | .pyArray _ => .arrayT

/-- Embedding of str(x) as interpolated into f-string messages, exact for
strings (the only case exercised by the embedded code paths). -/
def pyDisplay : PyData → String
  | .pyStr s => s
  | .pyInt n => toString n
  | .pyFloat lit => lit
  | .pyBool b => toString b
  | .pyNone => "None"
  | .pyList _ => "list"
  | .pyDict _ => "dict"
  | .pyArray _ => "array"

/-- Python exception classes of the errors raised by the embedded code. -/
inductive ExcClass where
  | keyError
  | valueError
  | typeError
  | nameError
  | attributeError
deriving DecidableEq

/-- Errors raised by the embedded code.  Each constructor corresponds to
one raise site (or one runtime failure of a primitive operation) and
carries the data the source interpolates into the exception message. -/
inductive PyErr where
  /-- KeyError raised by the duplicate-name checks in
  PlotterFactory._make_plotter / _make_plotter_list and
  RailDatasetFactory._make_dataset / _make_dataset_dict:
  f-string "(kind) (name) is already defined". -/
  | duplicateItem (kind name : String)
  /-- KeyError raised when a Group member is not registered, in
  PlotterFactory._make_plotter_list and RailDatasetFactory._make_dataset_dict:
  names the missing member and the keys of the item map. -/
  | unresolvedMember (kind member : String) (known : List String)
  /-- KeyError raised in RailDatasetFactory._make_dataset when the project
  lookup fails: names the requested project and the known project names. -/
  | missingProject (project : String) (known : List String)
  /-- KeyError raised when a required key is absent from a yaml block
  (dict.pop on a missing key, re-raised with the block kind and the
  remaining keys of the block). -/
  | missingBlockKey (key : String) (keys : List String)
  /-- ValueError raised by RailPlotter._set_config for a required
  configuration option with no supplied value. -/
  | missingConfig (key : String)
  /-- ValueError raised by RailPlotter._set_config when caller-supplied
  keys remain after all declared options were consumed. -/
  | unrecognizedConfig (keys : List String)
  /-- TypeError raised by RailPlotter._validate_inputs, naming the key,
  the actual type and the expected type. -/
  | inputTypeMismatch (key : String) (actual expected : PyTy)
  /-- NameError raised when a Python expression reads a variable that is
  not in scope (e.g. evaluating self in a classmethod body). -/
  | nameNotDefined (var : String)
  /-- AttributeError raised when an attribute or method is accessed on an
  object that does not have it (e.g. calling keys() on a list). -/
  | noAttribute (attr : String)
  /-- ValueError raised by list.remove(x) when x is not in the list. -/
  | valueErrorRemove (x : String)
  /-- KeyError raised by a plain dict subscript on a missing key
  (e.g. group_dict[group_] in run, kwargs[key] in a plot routine). -/
  | keyLookup (key : String)
  /-- KeyError raised by RailPlotter.get_plotter_class when the bare class
  name is not in the plotter_classes registry. -/
  | classNotFound (name : String) (known : List String)
  /-- KeyError intended by the unknown-block branches of
  load_instance_yaml, listing the recognized block kinds and (as written)
  the keys of the loaded data. -/
  | unknownBlock (goodKeys : List String) (keys : List String)
  /-- Artifact of the embedding: a yaml value did not have the shape the
  model requires (never raised on the inputs used in the theorems). -/
  | modelShape (what : String)

/-- Python exception class of each embedded error. -/
def PyErr.excClass : PyErr → ExcClass
  | .duplicateItem _ _ => .keyError
  | .unresolvedMember _ _ _ => .keyError
  | .missingProject _ _ => .keyError
  | .missingBlockKey _ _ => .keyError
  | .missingConfig _ => .valueError
  | .unrecognizedConfig _ => .valueError
  | .inputTypeMismatch _ _ _ => .typeError
  | .nameNotDefined _ => .nameError
  | .noAttribute _ => .attributeError
  | .valueErrorRemove _ => .valueError
  | .keyLookup _ => .keyError
  | .classNotFound _ _ => .keyError
  | .unknownBlock _ _ => .keyError
  | .modelShape _ => .typeError

/-- Association lists over string keys, embedding Python dicts with their
insertion order. -/
def AList (α : Type) : Type := List (String × α)

/-- Lookup of a key, embedding d.get(k) / "k in d". -/
def alookup {α : Type} : AList α → String → Option α
  | [], _ => none
  | (k, v) :: rest, key => if k = key then some v else alookup rest key

/-- Keys of a dict in insertion order, embedding list(d.keys()). -/
def akeys {α : Type} (m : AList α) : List String :=
  m.map Prod.fst

/-- Assignment d[k] = v: replaces the value of an existing key in place,
appends a new key at the end (Python dict insertion-order semantics). -/
def aset {α : Type} : AList α → String → α → AList α
  | [], key, v => [(key, v)]
  | (k, w) :: rest, key, v =>
      if k = key then (k, v) :: rest else (k, w) :: aset rest key v

/-- Merge d.update(new): assign every pair of new into d, in order. -/
def aupdate {α : Type} (m new : AList α) : AList α :=
  new.foldl (fun acc kv => aset acc kv.fst kv.snd) m

/-- Removal d.pop(k): the popped value and the dict without the key, or
none when the key is absent (the caller decides which KeyError to raise). -/
def apop {α : Type} : AList α → String → Option (α × AList α)
  | [], _ => none
  | (k, v) :: rest, key =>
      if k = key then some (v, rest)
      else
        match apop rest key with
        | none => none
        | some (w, rest2) => some (w, (k, v) :: rest2)

/-- Embedding of the keys() method of a Python object: defined on dicts,
an AttributeError on every other value (in particular on lists). -/
def PyData.keysMethod : PyData → Except PyErr (List String)
  | .pyDict kvs => .ok (kvs.map Prod.fst)
  | _ => .error (.noAttribute ("keys"))

/-- Matplotlib figures are opaque to the embedded control logic; an
abstract handle stands for them. -/
abbrev Figure : Type := Nat

end RailPlotting

namespace RailPlotting

/-
Embedding of src/rail/plotting/control.py.
-/

/-- Embedding of RailPlotGroup.__call__ (control.py).  The first component
is the state of self._plots after the call, the second the returned dict
(the source returns self._plots itself, so the two coincide).  The newly
computed figures of make_plots(...) are passed in as newPlots; the disk
write performed by write_plots is outside the model. -/
def plotGroupCall (plots newPlots : AList Figure) (save purge : Bool) :
    AList Figure × AList Figure :=
  let merged := aupdate plots newPlots
  if save then
    if purge then ([], [])
    else (merged, merged)
  else (merged, merged)

/-- Embedding of list.remove(x) (used on include_groups in run):
removes the first occurrence of x, raises ValueError when x is absent. -/
def listRemove : List String → String → Except PyErr (List String)
  | [], x => .error (.valueErrorRemove x)
  | y :: ys, x =>
      if y = x then .ok ys
      else
        match listRemove ys x with
        | .error e => .error e
        | .ok rest => .ok (y :: rest)

/-- Embedding of the exclusion loop of run (control.py):
for exclude_group_ in exclude_groups: include_groups.remove(exclude_group_). -/
def applyExcludes (incl : List String) : List String → Except PyErr (List String)
  | [] => .ok incl
  | e :: es =>
      match listRemove incl e with
      | .error err => .error err
      | .ok rest => applyExcludes rest es

/-- Embedding of the include/exclude selection of run (control.py):
include_groups defaults to all group names when None or empty,
exclude_groups defaults to the empty list, then each excluded name is
removed from the include list with list.remove. -/
def runSelect (groupNames : List String)
    (includeGroups excludeGroups : Option (List String)) :
    Except PyErr (List String) :=
  let incl :=
    match includeGroups with
    | none => groupNames
    | some l => if l.isEmpty then groupNames else l
  let excl :=
    match excludeGroups with
    | none => []
    | some l => l
  applyExcludes incl excl

/-- Embedding of the execution loop of run (control.py): for each selected
name, group_dict[group_] (KeyError when absent), then the group is called
and its returned figures merged into out_dict.  groups maps each group
name to the figures its plotter-list/dataset-dict combination computes;
each freshly loaded group starts with an empty self._plots.  Returns the
merged out_dict together with the list of executed group names in order. -/
def runExec (groups : AList (AList Figure)) (save purge : Bool)
    (outDict : AList Figure) (executed : List String) :
    List String → Except PyErr (AList Figure × List String)
  | [] => .ok (outDict, executed)
  | g :: gs =>
      match alookup groups g with
      | none => .error (.keyLookup g)
      | some newPlots =>
          let returned := (plotGroupCall [] newPlots save purge).snd
          runExec groups save purge (aupdate outDict returned) (executed ++ [g]) gs

/-- Embedding of run (control.py) after RailPlotGroup.load_yaml produced
group_dict: select the groups with runSelect, then execute them in order.
The merge order of the source (out_dict.update per group, front to back)
is reproduced by runExec. -/
def runModel (groups : AList (AList Figure))
    (includeGroups excludeGroups : Option (List String))
    (save purge : Bool) : Except PyErr (AList Figure × List String) :=
  match runSelect (akeys groups) includeGroups excludeGroups with
  | .error e => .error e
  | .ok selected => runExec groups save purge [] [] selected

/-
Heap model of the argument handling of run (control.py), for stating what
happens to the caller's include_groups list object.
-/

/-- Heap of Python list-of-string objects: an address maps to the current
contents of the list object living there. -/
def Store : Type := Nat → List String

/-- Write the contents of the list object at an address. -/
def Store.write (s : Store) (addr : Nat) (xs : List String) : Store :=
  fun a => if a = addr then xs else s a

/-- Value of the local variable include_groups inside run: either an
alias of the caller's list object (a heap address) or a fresh list value
allocated inside run by list(group_dict.keys()) or []. -/
inductive LocalList where
  | ref (addr : Nat)
  | freshList (xs : List String)

/-- Current contents of the list the local variable denotes. -/
def LocalList.read (s : Store) : LocalList → List String
  | .ref a => s a
  | .freshList xs => xs

/-- Embedding of include_groups.remove(x): mutates whichever list object
the local variable denotes — the caller's object when the variable is an
alias of it. -/
def removeOn (s : Store) (l : LocalList) (x : String) :
    Except PyErr (Store × LocalList) :=
  match l with
  | .ref a =>
      match listRemove (s a) x with
      | .error e => .error e
      | .ok xs => .ok (s.write a xs, .ref a)
  | .freshList xs =>
      match listRemove xs x with
      | .error e => .error e
      | .ok ys => .ok (s, .freshList ys)

/-- Embedding of the exclusion loop of run over the heap model. -/
def excludeLoopOn (s : Store) (l : LocalList) :
    List String → Except PyErr (Store × LocalList)
  | [] => .ok (s, l)
  | e :: es =>
      match removeOn s l e with
      | .error err => .error err
      | .ok (s2, l2) => excludeLoopOn s2 l2 es

/-- Embedding of the include/exclude handling of run with the caller's
include_groups modelled as a heap object: includeArg is none when the
caller passed include_groups=None and some addr when the caller's list
lives at addr.  Mirrors the source: when None or empty the local variable
is rebound to a fresh list (the caller's object is untouched), otherwise
it remains an alias of the caller's object and every list.remove writes
through it.  Returns the final heap and the selected group names. -/
def runSelectEffect (s : Store) (includeArg : Option Nat)
    (excludeGroups : Option (List String)) (groupNames : List String) :
    Except PyErr (Store × List String) :=
  let l : LocalList :=
    match includeArg with
    | none => .freshList groupNames
    | some a => if (s a).isEmpty then .freshList groupNames else .ref a
  let excl :=
    match excludeGroups with
    | none => []
    | some e => e
  match excludeLoopOn s l excl with
  | .error err => .error err
  | .ok (s2, l2) => .ok (s2, l2.read s2)

end RailPlotting

namespace RailPlotting

/-
Embedding of src/rail/plotting/plotter.py and pz_plotters.py.
-/

/-- Declared configuration option, abstracting ceci.config.StageParameter
to the two attributes _set_config reads: required and default. -/
structure StageParam where
  required : Bool
  default : PyData

/-- Class-level declarations of a RailPlotter implementation.
configOptions embeds the config_options class attribute; inputsAttr the
attribute named inputs that the concrete pz_plotters classes declare;
validatedInputs the attribute named _inputs that _validate_inputs
actually iterates (the base class defines it as the empty dict and no
class in the repository overrides it); labels the artifact labels the
implementation's _make_plots uses. -/
structure PlotterClass where
  configOptions : List (String × StageParam)
  inputsAttr : List (String × PyTy)
  validatedInputs : List (String × PyTy)
  labels : List String

/-- Embedding of the loop of RailPlotter._set_config over the declared
config keys: a supplied key is popped from kwcopy into the config, an
unsupplied required key raises ValueError, an unsupplied optional key
gets its default.  Returns the config together with the remaining
kwcopy. -/
def setConfigLoop (kwargs : AList PyData) :
    List (String × StageParam) → AList PyData → AList PyData →
    Except PyErr (AList PyData × AList PyData)
  | [], kwcopy, config => .ok (config, kwcopy)
  | (key, attr) :: rest, kwcopy, config =>
      match alookup kwargs key with
      | some _ =>
          match apop kwcopy key with
          | some (v, kwcopy2) => setConfigLoop kwargs rest kwcopy2 (aset config key v)
          | none => .error (.modelShape ("kwcopy lost a key of kwargs"))
      | none =>
          if attr.required then .error (.missingConfig key)
          else setConfigLoop kwargs rest kwcopy (aset config key attr.default)

/-- Embedding of RailPlotter._set_config: run the loop over the declared
options starting from kwcopy = kwargs.copy(), then raise ValueError
listing the remaining kwcopy keys if any caller-supplied key was not
consumed. -/
def setConfig (decl : List (String × StageParam)) (kwargs : AList PyData) :
    Except PyErr (AList PyData) :=
  match setConfigLoop kwargs decl kwargs [] with
  | .error e => .error e
  | .ok (config, kwcopy) =>
      if kwcopy.isEmpty then .ok config
      else .error (.unrecognizedConfig (akeys kwcopy))

/-- Fully constructed RailPlotter instance: self._name, the class, and
the resolved configuration view. -/
structure Plotter where
  name : String
  cls : PlotterClass
  config : AList PyData

/-- Embedding of RailPlotter.__init__: store the name and resolve the
configuration with _set_config. -/
def railPlotterInit (cls : PlotterClass) (name : String)
    (kwargs : AList PyData) : Except PyErr Plotter :=
  match setConfig cls.configOptions kwargs with
  | .error e => .error e
  | .ok config => .ok { name := name, cls := cls, config := config }

/-- Embedding of RailPlotter._validate_inputs.  The method is a
classmethod iterating cls._inputs; on a missing key the raise statement
interpolates self._name into its message, but self is not bound in a
classmethod, so evaluating the message raises NameError instead of the
intended KeyError.  The isinstance check is embedded as a type-tag
comparison. -/
def validateInputs (inputsDecl : List (String × PyTy)) (kwargs : AList PyData) :
    Except PyErr Unit :=
  match inputsDecl with
  | [] => .ok ()
  | (key, expected) :: rest =>
      match alookup kwargs key with
      | none => .error (.nameNotDefined ("self"))
      | some data =>
          if data.typeOf = expected then validateInputs rest kwargs
          else .error (.inputTypeMismatch key data.typeOf expected)

/-- Embedding of RailPlotter._make_full_plot_name:
f-string of self._name, the prefix and the plot name joined by
underscores. -/
def makeFullPlotName (name pfx plotName : String) : String :=
  name ++ "_" ++ pfx ++ "_" ++ plotName

/-- Declarations of PZPlotterPointEstimateVsTrueHist2D (pz_plotters.py):
three optional config options with defaults, an inputs attribute
declaring truth and pointEstimate as arrays, the inherited empty _inputs,
and the single artifact label of _make_plots. -/
def hist2dClass : PlotterClass :=
  { configOptions :=
      [("z_min", { required := false, default := .pyFloat ("0.0") }),
       ("z_max", { required := false, default := .pyFloat ("3.0") }),
       ("n_zbins", { required := false, default := .pyInt 150 })]
  , inputsAttr := [("truth", .arrayT), ("pointEstimate", .arrayT)]
  , validatedInputs := []
  , labels := ["hist"] }

/-- Embedding of PZPlotterPointEstimateVsTrueHist2D._make_2d_hist_plot:
plt.subplots() allocates a figure before hist2d subscripts kwargs for
truth and pointEstimate (a plain KeyError when either is absent).  The
first component counts the figures created by the call. -/
def makeHist2dPlot (kwargs : AList PyData) : Nat × Except PyErr Figure :=
  (1,
    match alookup kwargs ("truth") with
    | none => .error (.keyLookup ("truth"))
    | some _ =>
        match alookup kwargs ("pointEstimate") with
        | none => .error (.keyLookup ("pointEstimate"))
        | some _ => .ok (0 : Nat))

/-- Embedding of PZPlotterPointEstimateVsTrueHist2D._make_plots: one
plot, keyed by _make_full_plot_name of the prefix and the label hist. -/
def hist2dMakePlots (name pfx : String) (kwargs : AList PyData) :
    Nat × Except PyErr (AList Figure) :=
  match makeHist2dPlot kwargs with
  | (figs, .error e) => (figs, .error e)
  | (figs, .ok f) => (figs, .ok [(makeFullPlotName name pfx ("hist"), f)])

/-- Embedding of RailPlotter.__call__ on a
PZPlotterPointEstimateVsTrueHist2D instance: _validate_inputs over
cls._inputs (the inherited empty dict — the schema the subclass declares
under the attribute inputs is not read by _validate_inputs), then
_make_plots.  The first component counts the figures created before the
call returned or raised. -/
def hist2dCall (name pfx : String) (kwargs : AList PyData) :
    Nat × Except PyErr (AList Figure) :=
  match validateInputs hist2dClass.validatedInputs kwargs with
  | .error e => (0, .error e)
  | .ok _ => hist2dMakePlots name pfx kwargs

end RailPlotting

namespace RailPlotting

/-
Embedding of src/rail/plotting/plotter_factory.py.
-/

/-- State of the PlotterFactory singleton: the plotter map and the
plotter-list map. -/
structure PlotterFactorySt where
  plotterDict : AList Plotter
  plotterListDict : AList (List Plotter)

/-- Freshly constructed PlotterFactory. -/
def emptyPlotterFactory : PlotterFactorySt :=
  { plotterDict := [], plotterListDict := [] }

/-- Final segment of a dotted path, embedding the token splitting of
RailPlotter.load_plotter_class. -/
def lastSegment (s : String) : String :=
  (s.splitOn (".")).getLastD s

/-- Embedding of RailPlotter.get_plotter_class: look the bare name up in
the plotter_classes registry, KeyError naming the known classes when
absent.  The dynamic module import performed by load_plotter_class is
external to these sources and is modelled as already having populated the
registry passed in as reg. -/
def getPlotterClass (reg : AList PlotterClass) (name : String) :
    Except PyErr PlotterClass :=
  match alookup reg name with
  | some c => .ok c
  | none => .error (.classNotFound name (akeys reg))

/-- Embedding of RailPlotter.create_from_dict: pop class_name from a copy
of the config dict (KeyError when absent), resolve the class by the final
path segment, construct the plotter with the remaining keys. -/
def createFromDict (reg : AList PlotterClass) (name : String)
    (configDict : AList PyData) : Except PyErr Plotter :=
  match apop configDict ("class_name") with
  | none => .error (.keyLookup ("class_name"))
  | some (cn, rest) =>
      match getPlotterClass reg (lastSegment (pyDisplay cn)) with
      | .error e => .error e
      | .ok cls => railPlotterInit cls name rest

/-- Embedding of PlotterFactory._make_plotter: duplicate-name check
against the plotter map, then construction, then registration. -/
def makePlotter (reg : AList PlotterClass) (st : PlotterFactorySt)
    (name : String) (configDict : AList PyData) :
    Except PyErr (PlotterFactorySt × Plotter) :=
  if (alookup st.plotterDict name).isSome then
    .error (.duplicateItem ("Plotter") name)
  else
    match createFromDict reg name configDict with
    | .error e => .error e
    | .ok p => .ok ({ st with plotterDict := aset st.plotterDict name p }, p)

/-- Member-resolution loop of PlotterFactory._make_plotter_list: each
member name must already be in the plotter map, else KeyError naming the
member and the known plotter names. -/
def resolvePlotterMembers (st : PlotterFactorySt) :
    List String → List Plotter → Except PyErr (List Plotter)
  | [], acc => .ok acc
  | n :: ns, acc =>
      match alookup st.plotterDict n with
      | none => .error (.unresolvedMember ("RailPlotter") n (akeys st.plotterDict))
      | some p => resolvePlotterMembers st ns (acc ++ [p])

/-- Embedding of PlotterFactory._make_plotter_list: duplicate-name check
against the plotter-list map, eager member resolution, and registration
only after every member resolved. -/
def makePlotterList (st : PlotterFactorySt) (name : String)
    (plotterNames : List String) :
    Except PyErr (PlotterFactorySt × List Plotter) :=
  if (alookup st.plotterListDict name).isSome then
    .error (.duplicateItem ("PlotterList") name)
  else
    match resolvePlotterMembers st plotterNames [] with
    | .error e => .error e
    | .ok ps =>
        .ok ({ st with plotterListDict := aset st.plotterListDict name ps }, ps)

end RailPlotting

namespace RailPlotting

/-
Embedding of src/rail/plotting/dataset_factory.py.
-/

/-- Analysis project, abstracting rail.utils.project.RailProject (an
external collaborator) to the source it was loaded from. -/
structure RailProject where
  yamlFile : String

/-- State of the RailDatasetFactory singleton: the project map, the
dataset map and the dataset-dict map. -/
structure DatasetFactorySt where
  projects : AList RailProject
  datasets : AList PyData
  datasetDicts : AList (AList PyData)

/-- Freshly constructed RailDatasetFactory. -/
def emptyDatasetFactory : DatasetFactorySt :=
  { projects := [], datasets := [], datasetDicts := [] }

/-- Embedding of the data-extractor invocation inside _make_dataset.  The
extractor classes live outside these sources (data_extraction holds only
free helper functions here); the call is modelled as an always-succeeding
constructor packaging the project and the remaining keyword arguments
into the dataset dict. -/
def extractorCall (className : String) (project : RailProject)
    (kwargs : AList PyData) : PyData :=
  .pyDict (("project", .pyStr project.yamlFile) :: kwargs)

/-- Embedding of RailDatasetFactory._make_dataset: duplicate-name check
against the dataset map, pop the project kwarg, then look a project up in
self._projects — the source subscripts the string literal written
project_name in quotes, not the popped variable — and on a miss raise
KeyError naming the requested project and the known project names. -/
def makeDataset (st : DatasetFactorySt) (name className : String)
    (kwargs : AList PyData) : Except PyErr (DatasetFactorySt × PyData) :=
  if (alookup st.datasets name).isSome then
    .error (.duplicateItem ("Dataset") name)
  else
    match apop kwargs ("project") with
    | none => .error (.keyLookup ("project"))
    | some (projVal, rest) =>
        match alookup st.projects ("project_name") with
        | none => .error (.missingProject (pyDisplay projVal) (akeys st.projects))
        | some project =>
            let dataset := extractorCall className project rest
            .ok ({ st with datasets := aset st.datasets name dataset }, dataset)

/-- Member-resolution loop of RailDatasetFactory._make_dataset_dict:
each member name must already be in the dataset map, else KeyError naming
the member and the known dataset names. -/
def resolveDatasetMembers (st : DatasetFactorySt) :
    List String → AList PyData → Except PyErr (AList PyData)
  | [], acc => .ok acc
  | n :: ns, acc =>
      match alookup st.datasets n with
      | none => .error (.unresolvedMember ("Dataset") n (akeys st.datasets))
      | some d => resolveDatasetMembers st ns (aset acc n d)

/-- Embedding of RailDatasetFactory._make_dataset_dict: the source's
duplicate-name check tests name in self._datasets — the dataset map, not
the dataset-dict map — then resolves the members eagerly and registers
the dict only after every member resolved. -/
def makeDatasetDict (st : DatasetFactorySt) (name : String)
    (datasetNameList : List String) :
    Except PyErr (DatasetFactorySt × AList PyData) :=
  if (alookup st.datasets name).isSome then
    .error (.duplicateItem ("DatasetDict") name)
  else
    match resolveDatasetMembers st datasetNameList [] with
    | .error e => .error e
    | .ok ds =>
        .ok ({ st with datasetDicts := aset st.datasetDicts name ds }, ds)

end RailPlotting

namespace RailPlotting

/-
Embedding of the two load_instance_yaml loaders, over the block sequence
produced by yaml.safe_load.
-/

/-- Shape requirement of the model: a block body must be a mapping. -/
def asDictPairs : PyData → Except PyErr (AList PyData)
  | .pyDict kvs => .ok kvs
  | _ => .error (.modelShape ("block body is not a mapping"))

/-- Shape requirement of the model: a member list must be a yaml list;
members are read through str(). -/
def asStringList : PyData → Except PyErr (List String)
  | .pyList xs => .ok (xs.map pyDisplay)
  | _ => .error (.modelShape ("member list is not a list"))

/-- Embedding of config.pop(key) with the KeyError message that lists the
remaining keys of the block. -/
def popBlockKey (kvs : AList PyData) (key : String) :
    Except PyErr (PyData × AList PyData) :=
  match apop kvs key with
  | none => .error (.missingBlockKey key (akeys kvs))
  | some (v, rest) => .ok (v, rest)

/-- Embedding of RailProject.load_config (external collaborator). -/
def railProjectLoadConfig (yamlFile : String) : RailProject :=
  { yamlFile := yamlFile }

/-- Loop body of RailDatasetFactory.load_instance_yaml over the loaded
block sequence.  allBlocks is the whole loaded sequence (the variable
dataset_data of the source): the unknown-block branch interpolates
dataset_data.keys() into its message, and a Python list has no keys
method, so building that message raises AttributeError. -/
def datasetLoadLoop (allBlocks : List PyData) :
    DatasetFactorySt → List PyData → Except PyErr DatasetFactorySt
  | st, [] => .ok st
  | st, block :: rest =>
      match asDictPairs block with
      | .error e => .error e
      | .ok kvs =>
          if (alookup kvs ("Dataset")).isSome then
            match asDictPairs ((alookup kvs ("Dataset")).getD .pyNone) with
            | .error e => .error e
            | .ok cfg =>
                match popBlockKey cfg ("name") with
                | .error e => .error e
                | .ok (nameV, cfg2) =>
                    match popBlockKey cfg2 ("extractor") with
                    | .error e => .error e
                    | .ok (extrV, cfg3) =>
                        match makeDataset st (pyDisplay nameV) (pyDisplay extrV) cfg3 with
                        | .error e => .error e
                        | .ok (st2, _) => datasetLoadLoop allBlocks st2 rest
          else if (alookup kvs ("DatasetDict")).isSome then
            match asDictPairs ((alookup kvs ("DatasetDict")).getD .pyNone) with
            | .error e => .error e
            | .ok cfg =>
                match popBlockKey cfg ("name") with
                | .error e => .error e
                | .ok (nameV, cfg2) =>
                    match popBlockKey cfg2 ("datasets") with
                    | .error e => .error e
                    | .ok (membersV, _) =>
                        match asStringList membersV with
                        | .error e => .error e
                        | .ok members =>
                            match makeDatasetDict st (pyDisplay nameV) members with
                            | .error e => .error e
                            | .ok (st2, _) => datasetLoadLoop allBlocks st2 rest
          else if (alookup kvs ("Project")).isSome then
            match asDictPairs ((alookup kvs ("Project")).getD .pyNone) with
            | .error e => .error e
            | .ok cfg =>
                match popBlockKey cfg ("name") with
                | .error e => .error e
                | .ok (nameV, cfg2) =>
                    match popBlockKey cfg2 ("yaml_file") with
                    | .error e => .error e
                    | .ok (yamlV, _) =>
                        let proj := railProjectLoadConfig (pyDisplay yamlV)
                        let newProjects := aset st.projects (pyDisplay nameV) proj
                        datasetLoadLoop allBlocks { st with projects := newProjects } rest
          else
            match (PyData.pyList allBlocks).keysMethod with
            | .error e => .error e
            | .ok ks =>
                .error (.unknownBlock ["Dataset", "DatasetDict", "Project"] ks)

/-- Embedding of RailDatasetFactory.load_instance_yaml on an already
parsed block sequence. -/
def datasetLoadBlocks (st : DatasetFactorySt) (blocks : List PyData) :
    Except PyErr DatasetFactorySt :=
  datasetLoadLoop blocks st blocks

/-- Loop body of PlotterFactory.load_instance_yaml over the loaded block
sequence, with the same unknown-block behavior: the message interpolates
plotter_data.keys() where plotter_data is the loaded list. -/
def plotterLoadLoop (reg : AList PlotterClass) (allBlocks : List PyData) :
    PlotterFactorySt → List PyData → Except PyErr PlotterFactorySt
  | st, [] => .ok st
  | st, block :: rest =>
      match asDictPairs block with
      | .error e => .error e
      | .ok kvs =>
          if (alookup kvs ("Plotter")).isSome then
            match asDictPairs ((alookup kvs ("Plotter")).getD .pyNone) with
            | .error e => .error e
            | .ok cfg =>
                match popBlockKey cfg ("name") with
                | .error e => .error e
                | .ok (nameV, cfg2) =>
                    match makePlotter reg st (pyDisplay nameV) cfg2 with
                    | .error e => .error e
                    | .ok (st2, _) => plotterLoadLoop reg allBlocks st2 rest
          else if (alookup kvs ("PlotterList")).isSome then
            match asDictPairs ((alookup kvs ("PlotterList")).getD .pyNone) with
            | .error e => .error e
            | .ok cfg =>
                match popBlockKey cfg ("name") with
                | .error e => .error e
                | .ok (nameV, cfg2) =>
                    match popBlockKey cfg2 ("plotters") with
                    | .error e => .error e
                    | .ok (membersV, _) =>
                        match asStringList membersV with
                        | .error e => .error e
                        | .ok members =>
                            match makePlotterList st (pyDisplay nameV) members with
                            | .error e => .error e
                            | .ok (st2, _) => plotterLoadLoop reg allBlocks st2 rest
          else
            match (PyData.pyList allBlocks).keysMethod with
            | .error e => .error e
            | .ok ks =>
                .error (.unknownBlock ["Plotter", "PlotterList"] ks)

/-- Embedding of PlotterFactory.load_instance_yaml on an already parsed
block sequence. -/
def plotterLoadBlocks (reg : AList PlotterClass) (st : PlotterFactorySt)
    (blocks : List PyData) : Except PyErr PlotterFactorySt :=
  plotterLoadLoop reg blocks st blocks

end RailPlotting

namespace RailPlotting

/-
Supporting lemmas about the dict embedding.
-/

theorem akeys_nil {α : Type} : akeys ([] : AList α) = [] := rfl

theorem akeys_cons {α : Type} (k : String) (v : α) (m : AList α) :
    akeys ((k, v) :: m) = k :: akeys m := rfl

theorem alookup_aset_self {α : Type} (m : AList α) (k : String) (v : α) :
    alookup (aset m k v) k = some v := by
  induction m with
  | nil => simp [aset, alookup]
  | cons kv rest ih =>
      obtain ⟨k0, v0⟩ := kv
      by_cases h : k0 = k
      · simp [aset, h, alookup]
      · simp [aset, h, alookup, ih]

theorem alookup_aset_ne {α : Type} (m : AList α) (k k2 : String) (v : α)
    (h : k2 ≠ k) : alookup (aset m k v) k2 = alookup m k2 := by
  induction m with
  | nil =>
      have h2 : ¬ k = k2 := fun hh => h hh.symm
      simp [aset, alookup, h2]
  | cons kv rest ih =>
      obtain ⟨k0, v0⟩ := kv
      by_cases h0 : k0 = k
      · subst h0
        have h2 : ¬ k0 = k2 := fun hh => h hh.symm
        simp [aset, alookup, h2]
      · by_cases h1 : k0 = k2
        · subst h1
          simp [aset, h0, alookup]
        · simp [aset, h0, alookup, h1, ih]

theorem alookup_isSome_iff {α : Type} (m : AList α) (k : String) :
    (alookup m k).isSome = true ↔ k ∈ akeys m := by
  induction m with
  | nil => simp [alookup, akeys_nil]
  | cons kv rest ih =>
      obtain ⟨k0, v0⟩ := kv
      rw [akeys_cons]
      by_cases h : k0 = k
      · subst h
        simp [alookup]
      · have h2 : ¬ k = k0 := fun hh => h hh.symm
        simp [alookup, h, h2, ih]

theorem alookup_none_not_mem {α : Type} (m : AList α) (k : String)
    (h : alookup m k = none) : ¬ k ∈ akeys m := by
  intro hmem
  have h2 := (alookup_isSome_iff m k).mpr hmem
  rw [h] at h2
  simp at h2

theorem aupdate_cons {α : Type} (m : AList α) (k : String) (v : α)
    (rest : AList α) :
    aupdate m ((k, v) :: rest) = aupdate (aset m k v) rest := by
  simp [aupdate, List.foldl]

theorem alookup_aupdate_not_mem {α : Type} (new : AList α) :
    ∀ (m : AList α) (k : String), ¬ k ∈ akeys new →
      alookup (aupdate m new) k = alookup m k := by
  induction new with
  | nil => intro m k h; simp [aupdate]
  | cons kv rest ih =>
      intro m k h
      obtain ⟨k0, v0⟩ := kv
      rw [akeys_cons] at h
      rw [aupdate_cons]
      have hk : ¬ k ∈ akeys rest := fun hx => h (List.mem_cons_of_mem _ hx)
      have hne : k ≠ k0 := fun hx => h (hx ▸ List.mem_cons_self _ _)
      rw [ih (aset m k0 v0) k hk, alookup_aset_ne m k0 k v0 hne]

theorem alookup_aupdate_mem {α : Type} (new : AList α) :
    ∀ (m : AList α) (k : String) (v : α), (akeys new).Nodup →
      alookup new k = some v → alookup (aupdate m new) k = some v := by
  induction new with
  | nil => intro m k v _ h; simp [alookup] at h
  | cons kv rest ih =>
      intro m k v hnd h
      obtain ⟨k0, v0⟩ := kv
      rw [akeys_cons] at hnd
      have hnd2 := List.nodup_cons.mp hnd
      rw [aupdate_cons]
      by_cases he : k0 = k
      · subst he
        simp [alookup] at h
        subst h
        rw [alookup_aupdate_not_mem rest (aset m k0 v0) k0 hnd2.1]
        exact alookup_aset_self m k0 v0
      · have h2 : alookup rest k = some v := by simpa [alookup, he] using h
        exact ih (aset m k0 v0) k v hnd2.2 h2

theorem filter_ne_of_not_mem (k : String) (l : List String) (h : ¬ k ∈ l) :
    l.filter (fun x => decide (¬ x = k)) = l := by
  refine List.filter_eq_self.mpr ?_
  intro a ha
  have hne : ¬ a = k := fun hx => h (hx ▸ ha)
  simpa using hne

theorem apop_spec {α : Type} (k : String) (v : α) :
    ∀ m : AList α, (akeys m).Nodup → alookup m k = some v →
      ∃ m2, apop m k = some (v, m2)
        ∧ (∀ k2, k2 ≠ k → alookup m2 k2 = alookup m k2)
        ∧ akeys m2 = (akeys m).filter (fun x => decide (¬ x = k)) := by
  intro m
  induction m with
  | nil => intro _ h; simp [alookup] at h
  | cons kv rest ih =>
      intro hnd h
      obtain ⟨k0, v0⟩ := kv
      rw [akeys_cons] at hnd
      have hnd2 := List.nodup_cons.mp hnd
      by_cases he : k0 = k
      · subst he
        simp [alookup] at h
        subst h
        refine ⟨rest, by simp [apop], ?_, ?_⟩
        · intro k2 hne
          have h2 : ¬ k0 = k2 := fun hh => hne hh.symm
          simp [alookup, h2]
        · rw [akeys_cons, List.filter]
          simp only [decide_not, decide_eq_true_eq]
          have h3 := filter_ne_of_not_mem k0 (akeys rest) hnd2.1
          simp only [decide_not] at h3
          simp [h3]
      · have h2 : alookup rest k = some v := by simpa [alookup, he] using h
        obtain ⟨m2, hpop, hframe, hkeys⟩ := ih hnd2.2 h2
        refine ⟨(k0, v0) :: m2, by simp [apop, he, hpop], ?_, ?_⟩
        · intro k2 hne
          by_cases h1 : k0 = k2
          · simp [alookup, h1]
          · simp [alookup, h1, hframe k2 hne]
        · rw [akeys_cons, akeys_cons, List.filter]
          simp only [decide_not, decide_eq_true_eq] at hkeys ⊢
          simp [he, hkeys]

end RailPlotting
namespace RailPlotting

/-
Supporting lemmas about the control.run embedding.
-/

theorem listRemove_length (x : String) :
    ∀ l l2 : List String, listRemove l x = .ok l2 → l2.length + 1 = l.length := by
  intro l
  induction l with
  | nil => intro l2 h; simp [listRemove] at h
  | cons y ys ih =>
      intro l2 h
      by_cases he : y = x
      · simp [listRemove, he] at h
        subst h
        simp
      · simp only [listRemove, if_neg he] at h
        cases hrec : listRemove ys x with
        | error e => rw [hrec] at h; simp at h
        | ok rest =>
            rw [hrec] at h
            simp at h
            subst h
            have hr := ih rest hrec
            simp only [List.length_cons]
            omega

theorem listRemove_nodup (x : String) :
    ∀ l : List String, l.Nodup → x ∈ l →
      listRemove l x = .ok (l.filter (fun y => decide (¬ y = x))) := by
  intro l
  induction l with
  | nil => intro _ h; simp at h
  | cons y ys ih =>
      intro hnd hmem
      have hnd2 := List.nodup_cons.mp hnd
      by_cases he : y = x
      · subst he
        have hy : ¬ y ∈ ys := hnd2.1
        have hfy := filter_ne_of_not_mem y ys hy
        simp only [listRemove, if_pos rfl, List.filter]
        simp only [decide_not] at hfy ⊢
        simp [hfy]
      · have hmem2 : x ∈ ys := by
          cases List.mem_cons.mp hmem with
          | inl h => exact absurd h.symm he
          | inr h => exact h
        have hrec := ih hnd2.2 hmem2
        simp only [listRemove, if_neg he, hrec, List.filter]
        have hyt : decide (¬ y = x) = true := by simpa using he
        simp only [decide_not] at hyt ⊢
        simp [hyt]

theorem applyExcludes_length :
    ∀ (excl incl sel : List String),
      applyExcludes incl excl = .ok sel →
      sel.length + excl.length = incl.length := by
  intro excl
  induction excl with
  | nil =>
      intro incl sel h
      simp [applyExcludes] at h
      subst h
      simp
  | cons e es ih =>
      intro incl sel h
      simp only [applyExcludes] at h
      cases hrem : listRemove incl e with
      | error err => rw [hrem] at h; simp at h
      | ok rest =>
          rw [hrem] at h
          have h1 := listRemove_length e incl rest hrem
          have h2 := ih rest sel h
          simp only [List.length_cons]
          omega

theorem applyExcludes_filter :
    ∀ (excl incl : List String), incl.Nodup → excl.Nodup →
      (∀ e ∈ excl, e ∈ incl) →
      applyExcludes incl excl =
        .ok (incl.filter (fun x => decide (¬ x ∈ excl))) := by
  intro excl
  induction excl with
  | nil =>
      intro incl _ _ _
      have h : incl.filter (fun x => decide (¬ x ∈ ([] : List String))) = incl := by
        refine List.filter_eq_self.mpr ?_
        intro a _
        simp
      simp [applyExcludes, h]
  | cons e es ih =>
      intro incl hni hne hsub
      have hnd2 := List.nodup_cons.mp hne
      have hein : e ∈ incl := hsub e (List.mem_cons_self _ _)
      have hrem := listRemove_nodup e incl hni hein
      simp only [applyExcludes, hrem]
      have hnd3 : (incl.filter (fun y => decide (¬ y = e))).Nodup :=
        List.Nodup.filter _ hni
      have hsub2 : ∀ x ∈ es, x ∈ incl.filter (fun y => decide (¬ y = e)) := by
        intro x hx
        refine List.mem_filter.mpr ⟨hsub x (List.mem_cons_of_mem _ hx), ?_⟩
        have hxe : ¬ x = e := fun hh => hnd2.1 (hh ▸ hx)
        simpa using hxe
      rw [ih (incl.filter (fun y => decide (¬ y = e))) hnd3 hnd2.2 hsub2]
      rw [List.filter_filter]
      congr 1
      refine List.filter_congr ?_
      intro x _
      by_cases hxe : x = e
      · subst hxe
        simp
      · simp [hxe]

theorem runExec_ok (groups : AList (AList Figure)) (save purge : Bool) :
    ∀ (sel : List String) (acc : AList Figure) (executed : List String),
      (∀ g ∈ sel, (alookup groups g).isSome) →
      ∃ out, runExec groups save purge acc executed sel = .ok (out, executed ++ sel) := by
  intro sel
  induction sel with
  | nil => intro acc executed _; exact ⟨acc, by simp [runExec]⟩
  | cons g gs ih =>
      intro acc executed hall
      have hg := hall g (List.mem_cons_self _ _)
      cases hlook : alookup groups g with
      | none => rw [hlook] at hg; simp at hg
      | some newPlots =>
          obtain ⟨out, hout⟩ := ih (aupdate acc ((plotGroupCall [] newPlots save purge).snd))
            (executed ++ [g]) (fun x hx => hall x (List.mem_cons_of_mem _ hx))
          refine ⟨out, ?_⟩
          simp only [runExec, hlook, hout]
          simp

end RailPlotting

namespace RailPlotting

/-- Theorem for claim C1 (counterexample).  The claim states that run
succeeds when exclude_groups contains a name absent from the include
list, treating it as a no-op.  On the code, include_groups.remove raises
ValueError for such a name: run(yaml, include_groups=["A"],
exclude_groups=["B"]) with a single group "A" defined raises ValueError
instead of executing {"A"}. -/
theorem c1_exclude_absent_counterexample :
    runModel [("A", [])] (some ["A"]) (some ["B"]) true true
        = .error (.valueErrorRemove ("B"))
      ∧ (PyErr.valueErrorRemove ("B")).excClass = ExcClass.valueError := by
  constructor
  · rfl
  · rfl

/-- Theorem for claim C1 (amended).  For a non-empty include list I and an
exclude list E whose names all occur in I (both without duplicates, and
every included group defined), run succeeds and executes exactly the
groups of I minus E, in I's order; when E contains a name not in I the
call instead raises ValueError (see the counterexample). -/
theorem c1_include_exclude_amended (groups : AList (AList Figure))
    (I E : List String) (save purge : Bool)
    (hI : I ≠ []) (hnI : I.Nodup) (hnE : E.Nodup)
    (hsub : ∀ e ∈ E, e ∈ I)
    (hdef : ∀ g ∈ I, (alookup groups g).isSome) :
    ∃ out, runModel groups (some I) (some E) save purge
      = .ok (out, I.filter (fun x => decide (¬ x ∈ E))) := by
  have hsel := applyExcludes_filter E I hnI hnE hsub
  have hIe : I.isEmpty = false := by
    cases I with
    | nil => exact absurd rfl hI
    | cons a l => rfl
  have hdef2 : ∀ g ∈ I.filter (fun x => decide (¬ x ∈ E)), (alookup groups g).isSome := by
    intro g hg
    exact hdef g (List.mem_of_mem_filter hg)
  obtain ⟨out, hout⟩ := runExec_ok groups save purge
    (I.filter (fun x => decide (¬ x ∈ E))) [] [] hdef2
  refine ⟨out, ?_⟩
  have hselect : runSelect (akeys groups) (some I) (some E)
      = .ok (I.filter (fun x => decide (¬ x ∈ E))) := by
    simp only [runSelect, hIe, Bool.false_eq_true, if_false]
    exact hsel
  simp only [runModel, hselect]
  simpa using hout

/-- Witness for c1_include_exclude_amended at a concrete input:
include ["A", "B"], exclude ["B"], both groups defined; run succeeds and
executes exactly ["A"]. -/
theorem c1_include_exclude_amended_witness :
    ∃ out, runModel [("A", []), ("B", [])] (some ["A", "B"]) (some ["B"]) true true
      = .ok (out, ["A"]) := by
  obtain ⟨out, hout⟩ := c1_include_exclude_amended
    [("A", []), ("B", [])] ["A", "B"] ["B"] true true
    (by decide) (by decide) (by decide) (by decide) (by decide)
  refine ⟨out, ?_⟩
  simpa using hout

/-- Theorem for claim C8.  RailPlotGroup.__call__ merges the newly
computed figures into the in-memory set self._plots rather than replacing
it: keys absent from the new figures keep their old entries and new keys
are added; with save=True and purge=True the set is cleared after writing
and the returned mapping is empty; with save=False the purge flag has no
effect and the merged figures remain in memory. -/
theorem c8_plot_group_call (plots newPlots : AList Figure) (purge : Bool) :
    (plotGroupCall plots newPlots true true = ([], []))
    ∧ (plotGroupCall plots newPlots false purge
        = (aupdate plots newPlots, aupdate plots newPlots))
    ∧ (plotGroupCall plots newPlots false true
        = plotGroupCall plots newPlots false false)
    ∧ (plotGroupCall plots newPlots true false
        = (aupdate plots newPlots, aupdate plots newPlots))
    ∧ (∀ k, ¬ k ∈ akeys newPlots →
        alookup (plotGroupCall plots newPlots false purge).fst k = alookup plots k)
    ∧ (∀ k v, (akeys newPlots).Nodup → alookup newPlots k = some v →
        alookup (plotGroupCall plots newPlots false purge).fst k = some v) := by
  refine ⟨rfl, rfl, rfl, rfl, ?_, ?_⟩
  · intro k hk
    simpa [plotGroupCall] using alookup_aupdate_not_mem newPlots plots k hk
  · intro k v hnd hv
    simpa [plotGroupCall] using alookup_aupdate_mem newPlots plots k v hnd hv

/-- Witness for c8_plot_group_call at a concrete input: an old figure
under key old and a new figure under key new; without saving, the old
entry is retained and the new entry added; with save and purge the state
and returned mapping are empty. -/
theorem c8_plot_group_call_witness :
    (plotGroupCall [("old", 7)] [("new", 8)] true true = ([], []))
    ∧ alookup (plotGroupCall [("old", 7)] [("new", 8)] false true).fst "old" = some 7
    ∧ alookup (plotGroupCall [("old", 7)] [("new", 8)] false true).fst "new" = some 8 := by
  have h := c8_plot_group_call [("old", 7)] [("new", 8)] true
  refine ⟨h.1, ?_, ?_⟩
  · exact h.2.2.2.2.1 "old" (by decide)
  · exact h.2.2.2.2.2 "new" 8 (by decide) (by rfl)

end RailPlotting

namespace RailPlotting

/-- Theorem for claim C10.  When run is called with a non-empty caller
list at address a as include_groups and a non-empty exclude list whose
removals all succeed, the exclusion loop writes through the caller's
list object: after the call the caller's list holds the include list
minus the excluded names — a different, strictly shorter list than the
one passed in. -/
theorem c10_mutates_caller_include_list (s : Store) (a : Nat)
    (E sel groupNames : List String)
    (hne : s a ≠ []) (hEne : E ≠ [])
    (hex : applyExcludes (s a) E = .ok sel) :
    ∃ s2, runSelectEffect s (some a) (some E) groupNames = .ok (s2, sel)
      ∧ s2 a = sel ∧ s2 a ≠ s a := by
  have hloop : ∀ (E2 : List String) (s0 : Store) (sel2 : List String),
      applyExcludes (s0 a) E2 = .ok sel2 →
      ∃ s3, excludeLoopOn s0 (.ref a) E2 = .ok (s3, .ref a) ∧ s3 a = sel2 := by
    intro E2
    induction E2 with
    | nil =>
        intro s0 sel2 h
        simp [applyExcludes] at h
        exact ⟨s0, by simp [excludeLoopOn], h⟩
    | cons e es ih =>
        intro s0 sel2 h
        simp only [applyExcludes] at h
        cases hrem : listRemove (s0 a) e with
        | error err => rw [hrem] at h; simp at h
        | ok rest =>
            rw [hrem] at h
            have hwr : (s0.write a rest) a = rest := by simp [Store.write]
            obtain ⟨s3, hrec, hs3⟩ := ih (s0.write a rest) sel2 (by rw [hwr]; exact h)
            refine ⟨s3, ?_, hs3⟩
            simp only [excludeLoopOn, removeOn, hrem, hrec]
  have hie : (s a).isEmpty = false := by
    cases hsa : s a with
    | nil => exact absurd hsa hne
    | cons x xs => rfl
  obtain ⟨s3, hloopEq, hs3⟩ := hloop E s sel hex
  refine ⟨s3, ?_, hs3, ?_⟩
  · have hstep : runSelectEffect s (some a) (some E) groupNames
        = match excludeLoopOn s (.ref a) E with
          | .error err => .error err
          | .ok (s2, l2) => .ok (s2, l2.read s2) := by
      simp [runSelectEffect, hie]
    rw [hstep, hloopEq]
    simp [LocalList.read, hs3]
  · rw [hs3]
    intro hcontra
    have hlen := applyExcludes_length E (s a) sel hex
    have : sel.length = (s a).length := by rw [hcontra]
    cases E with
    | nil => exact hEne rfl
    | cons e es => simp at hlen; omega

/-- Witness for c10_mutates_caller_include_list at a concrete input: the
caller's list at address 0 holds ["A", "B"]; after run with
exclude_groups=["B"] the caller's object holds ["A"]. -/
theorem c10_mutates_caller_include_list_witness :
    ∃ s2, runSelectEffect (fun _ => ["A", "B"]) (some 0) (some ["B"]) ["A", "B"]
        = .ok (s2, ["A"])
      ∧ s2 0 = ["A"] ∧ s2 0 ≠ ["A", "B"] := by
  have h := c10_mutates_caller_include_list (fun _ => ["A", "B"]) 0
    ["B"] ["A"] ["A", "B"] (by decide) (by decide) (by rfl)
  exact h

end RailPlotting
namespace RailPlotting

/-- Sample fully constructed plotter used in concrete evaluations. -/
def samplePlotter : Plotter :=
  { name := "p1", cls := hist2dClass, config := [] }

/-- Theorem for claim C2 (code evaluation).  The claim states that
constructing a Dataset whose project key names a registered project
succeeds, and fails naming the missing project exactly when none of that
name is registered.  The code subscripts self._projects with the string
literal spelled project_name instead of the variable: construction fails
naming some_project even though some_project is registered, and with a
project registered under the literal key project_name construction
succeeds although the requested project nonexistent is not registered. -/
theorem c2_project_lookup_eval :
    makeDataset
        { projects := [("some_project", { yamlFile := "p.yaml" })],
          datasets := [], datasetDicts := [] }
        "gold" "PZExtractor" [("project", .pyStr "some_project")]
      = .error (.missingProject ("some_project") ["some_project"])
    ∧ (PyErr.missingProject ("some_project") ["some_project"]).excClass
        = ExcClass.keyError
    ∧ makeDataset
        { projects := [("project_name", { yamlFile := "x.yaml" })],
          datasets := [], datasetDicts := [] }
        "gold" "PZExtractor" [("project", .pyStr "nonexistent")]
      = .ok
        ({ projects := [("project_name", { yamlFile := "x.yaml" })],
           datasets := [("gold", .pyDict [("project", .pyStr "x.yaml")])],
           datasetDicts := [] },
         .pyDict [("project", .pyStr "x.yaml")]) := by
  refine ⟨rfl, rfl, rfl⟩

/-- Theorem for claim C4 (code evaluation).  The claim states that Item,
Group and Context names are independent namespaces with duplicates
rejected inside each.  The plotter factory behaves that way, but
RailDatasetFactory._make_dataset_dict checks the name against
self._datasets instead of self._dataset_dicts: a second DatasetDict named
dd silently overwrites the first (no DuplicateNameError, original
registration lost), while a DatasetDict named like an existing Dataset is
spuriously rejected. -/
theorem c4_duplicate_namespace_eval :
    makeDatasetDict
        { projects := [], datasets := [],
          datasetDicts := [("dd", [("x", .pyNone)])] }
        "dd" []
      = .ok
        ({ projects := [], datasets := [], datasetDicts := [("dd", [])] }, [])
    ∧ makeDatasetDict
        { projects := [], datasets := [("ds", .pyNone)], datasetDicts := [] }
        "ds" []
      = .error (.duplicateItem ("DatasetDict") ("ds"))
    ∧ makePlotter []
        { plotterDict := [("p1", samplePlotter)], plotterListDict := [] }
        "p1" []
      = .error (.duplicateItem ("Plotter") ("p1"))
    ∧ makePlotterList
        { plotterDict := [("p1", samplePlotter)], plotterListDict := [] }
        "p1" []
      = .ok
        ({ plotterDict := [("p1", samplePlotter)],
           plotterListDict := [("p1", [])] }, []) := by
  refine ⟨rfl, rfl, rfl, rfl⟩

/-- Theorem for claim C5 (code evaluation).  The claim states that a
missing declared input fails with a KeyError-kind missing-input error
before any plot is computed, and a wrongly typed input fails with a
TypeError naming expected versus actual type.  On the code: the concrete
plotters declare their schema under inputs while _validate_inputs
iterates the inherited empty _inputs, so no validation runs — invoking
the 2D-histogram plotter without truth creates a figure first
(one figure allocated) and then dies on a bare kwargs KeyError inside the
plot routine; and even with a populated _inputs the missing-key branch
raises NameError (its message reads self._name inside a classmethod),
which is not a KeyError. -/
theorem c5_missing_input_eval :
    hist2dCall "demo" "ctx" [] = (1, .error (.keyLookup ("truth")))
    ∧ hist2dClass.inputsAttr ≠ []
    ∧ hist2dClass.validatedInputs = []
    ∧ validateInputs [("truth", PyTy.arrayT)] []
        = .error (.nameNotDefined ("self"))
    ∧ (PyErr.nameNotDefined ("self")).excClass ≠ ExcClass.keyError
    ∧ validateInputs [("truth", PyTy.arrayT)] [("truth", .pyStr "oops")]
        = .error (.inputTypeMismatch ("truth") PyTy.strT PyTy.arrayT) := by
  refine ⟨rfl, by decide, rfl, rfl, by decide, rfl⟩

/-- Theorem for claim C9 (code evaluation).  The claim states that a
block whose single key is not a recognized kind fails with a
KeyError-kind schema error listing the recognized kinds and the offending
block's keys.  Both loaders instead crash while building that message:
they interpolate the keys() of the loaded block list (not of the block),
and a Python list has no keys method, so an AttributeError is raised and
the intended KeyError is never constructed. -/
theorem c9_unknown_block_eval :
    datasetLoadBlocks emptyDatasetFactory [.pyDict [("Bogus", .pyDict [])]]
      = .error (.noAttribute ("keys"))
    ∧ plotterLoadBlocks [] emptyPlotterFactory [.pyDict [("Bogus", .pyDict [])]]
      = .error (.noAttribute ("keys"))
    ∧ (PyErr.noAttribute ("keys")).excClass = ExcClass.attributeError
    ∧ (PyErr.noAttribute ("keys")).excClass ≠ ExcClass.keyError := by
  refine ⟨rfl, rfl, rfl, by decide⟩

end RailPlotting

namespace RailPlotting

/-- Member-resolution failure of the plotter-list loop: with every name
before the missing one resolvable, the loop stops at the first missing
member. -/
theorem resolvePlotterMembers_missing (st : PlotterFactorySt) (m : String)
    (hm : alookup st.plotterDict m = none) :
    ∀ (pre post : List String) (acc : List Plotter),
      (∀ x ∈ pre, (alookup st.plotterDict x).isSome) →
      resolvePlotterMembers st (pre ++ m :: post) acc
        = .error (.unresolvedMember ("RailPlotter") m (akeys st.plotterDict)) := by
  intro pre
  induction pre with
  | nil =>
      intro post acc _
      simp [resolvePlotterMembers, hm]
  | cons x xs ih =>
      intro post acc hall
      have hx := hall x (List.mem_cons_self _ _)
      cases hlook : alookup st.plotterDict x with
      | none => rw [hlook] at hx; simp at hx
      | some p =>
          simp only [List.cons_append, resolvePlotterMembers, hlook]
          exact ih post (acc ++ [p]) (fun y hy => hall y (List.mem_cons_of_mem _ hy))

/-- Member-resolution failure of the dataset-dict loop, analogous. -/
theorem resolveDatasetMembers_missing (st : DatasetFactorySt) (m : String)
    (hm : alookup st.datasets m = none) :
    ∀ (pre post : List String) (acc : AList PyData),
      (∀ x ∈ pre, (alookup st.datasets x).isSome) →
      resolveDatasetMembers st (pre ++ m :: post) acc
        = .error (.unresolvedMember ("Dataset") m (akeys st.datasets)) := by
  intro pre
  induction pre with
  | nil =>
      intro post acc _
      simp [resolveDatasetMembers, hm]
  | cons x xs ih =>
      intro post acc hall
      have hx := hall x (List.mem_cons_self _ _)
      cases hlook : alookup st.datasets x with
      | none => rw [hlook] at hx; simp at hx
      | some d =>
          simp only [List.cons_append, resolveDatasetMembers, hlook]
          exact ih post (aset acc x d) (fun y hy => hall y (List.mem_cons_of_mem _ hy))

/-- Theorem for claim C3.  A Group block (PlotterList or DatasetDict)
whose member list contains a name not registered in the corresponding
item map fails with a KeyError naming the first missing member and the
current known item names; the group map is untouched because both sources
register the group only on the line after the whole resolution loop, so
an error return carries no state update (the factory functions return a
new state only on success). -/
theorem c3_unresolved_member :
    (∀ (st : PlotterFactorySt) (name : String) (pre post : List String)
        (m : String),
      alookup st.plotterListDict name = none →
      (∀ x ∈ pre, (alookup st.plotterDict x).isSome) →
      alookup st.plotterDict m = none →
      makePlotterList st name (pre ++ m :: post)
        = .error (.unresolvedMember ("RailPlotter") m (akeys st.plotterDict)))
    ∧ (∀ (st : DatasetFactorySt) (name : String) (pre post : List String)
        (m : String),
      alookup st.datasets name = none →
      (∀ x ∈ pre, (alookup st.datasets x).isSome) →
      alookup st.datasets m = none →
      makeDatasetDict st name (pre ++ m :: post)
        = .error (.unresolvedMember ("Dataset") m (akeys st.datasets))) := by
  constructor
  · intro st name pre post m hdup hpre hm
    have hres := resolvePlotterMembers_missing st m hm pre post [] hpre
    simp [makePlotterList, hdup, hres]
  · intro st name pre post m hdup hpre hm
    have hres := resolveDatasetMembers_missing st m hm pre post [] hpre
    simp [makeDatasetDict, hdup, hres]

/-- Witness for c3_unresolved_member at concrete inputs: a plotter list
naming the unregistered member missing after the registered plotter p1
fails naming missing and the known set, and a dataset dict naming the
unregistered member absent fails the same way over the dataset map. -/
theorem c3_unresolved_member_witness :
    makePlotterList
        { plotterDict := [("p1", samplePlotter)], plotterListDict := [] }
        "L" (["p1"] ++ "missing" :: [])
      = .error (.unresolvedMember ("RailPlotter") ("missing") ["p1"])
    ∧ makeDatasetDict
        { projects := [], datasets := [("d1", .pyNone)], datasetDicts := [] }
        "D" ([] ++ "absent" :: [])
      = .error (.unresolvedMember ("Dataset") ("absent") ["d1"]) := by
  constructor
  · exact c3_unresolved_member.1
      { plotterDict := [("p1", samplePlotter)], plotterListDict := [] }
      "L" ["p1"] [] "missing" rfl (by decide) rfl
  · exact c3_unresolved_member.2
      { projects := [], datasets := [("d1", .pyNone)], datasetDicts := [] }
      "D" [] [] "absent" rfl (by simp) rfl

end RailPlotting
namespace RailPlotting

/-
Supporting lemmas about underscore-joined plot names.
-/

/-- Cancellation around a separator: when neither prefix contains the
separator character, equal separator-joined lists have equal parts. -/
theorem sepCancel :
    ∀ (xs xs2 ys ys2 : List Char), ¬ '_' ∈ xs → ¬ '_' ∈ xs2 →
      xs ++ '_' :: ys = xs2 ++ '_' :: ys2 → xs = xs2 ∧ ys = ys2 := by
  intro xs
  induction xs with
  | nil =>
      intro xs2 ys ys2 h1 h2 heq
      rw [List.nil_append] at heq
      cases xs2 with
      | nil =>
          rw [List.nil_append] at heq
          injection heq with _ h
          exact ⟨rfl, h⟩
      | cons b u =>
          rw [List.cons_append] at heq
          injection heq with hb _
          have hmem : '_' ∈ b :: u := by
            rw [hb]
            exact List.mem_cons_self b u
          exact absurd hmem h2
  | cons a t ih =>
      intro xs2 ys ys2 h1 h2 heq
      cases xs2 with
      | nil =>
          rw [List.nil_append, List.cons_append] at heq
          injection heq with hb _
          have hmem : '_' ∈ a :: t := by
            rw [← hb]
            exact List.mem_cons_self a t
          exact absurd hmem h1
      | cons b u =>
          rw [List.cons_append, List.cons_append] at heq
          injection heq with hab hrest
          have h1t : ¬ '_' ∈ t := fun hx => h1 (List.mem_cons_of_mem _ hx)
          have h2u : ¬ '_' ∈ u := fun hx => h2 (List.mem_cons_of_mem _ hx)
          obtain ⟨ht, hy⟩ := ih u ys ys2 h1t h2u hrest
          exact ⟨by rw [hab, ht], hy⟩

/-- Character content of a full plot name. -/
theorem makeFullPlotName_data (n p l : String) :
    (makeFullPlotName n p l).data
      = n.data ++ '_' :: (p.data ++ '_' :: l.data) := by
  have hu : ("_" : String).data = ['_'] := rfl
  simp [makeFullPlotName, String.data_append, hu]

/-- Injectivity of _make_full_plot_name in its context label and artifact
label for a fixed instance name, provided the artifact labels contain no
underscore. -/
theorem makeFullPlotName_inj (n p1 p2 l1 l2 : String)
    (h1 : ¬ '_' ∈ l1.data) (h2 : ¬ '_' ∈ l2.data)
    (heq : makeFullPlotName n p1 l1 = makeFullPlotName n p2 l2) :
    p1 = p2 ∧ l1 = l2 := by
  have hd := congrArg String.data heq
  rw [makeFullPlotName_data, makeFullPlotName_data] at hd
  have hd2 := List.append_cancel_left hd
  injection hd2 with _ hd3
  have hrev : l1.data.reverse ++ '_' :: p1.data.reverse
      = l2.data.reverse ++ '_' :: p2.data.reverse := by
    have h4 := congrArg List.reverse hd3
    simpa [List.reverse_append, List.append_assoc] using h4
  have h1r : ¬ '_' ∈ l1.data.reverse := by simpa using h1
  have h2r : ¬ '_' ∈ l2.data.reverse := by simpa using h2
  obtain ⟨hl, hp⟩ := sepCancel l1.data.reverse l2.data.reverse
    p1.data.reverse p2.data.reverse h1r h2r hrev
  constructor
  · exact String.ext (List.reverse_inj.mp hp)
  · exact String.ext (List.reverse_inj.mp hl)

/-- Theorem for claim C7 (counterexample).  The claim asserts disjoint
output-key sets for any two invocations differing in instance name.  With
underscore-joined names this fails: the instance named a invoked under
context label b_c and the instance named a_b invoked under context label
c both produce exactly the output key a_b_c_hist. -/
theorem c7_distinct_instance_counterexample :
    (hist2dMakePlots "a" "b_c"
        [("truth", .pyArray []), ("pointEstimate", .pyArray [])]).snd
      = .ok [("a_b_c_hist", 0)]
    ∧ (hist2dMakePlots "a_b" "c"
        [("truth", .pyArray []), ("pointEstimate", .pyArray [])]).snd
      = .ok [("a_b_c_hist", 0)]
    ∧ makeFullPlotName "a" "b_c" "hist" = makeFullPlotName "a_b" "c" "hist" := by
  refine ⟨rfl, rfl, rfl⟩

/-- Theorem for claim C7 (amended).  Every output key of a 2D-histogram
plotter invocation equals instance_context_artifact as produced by
_make_full_plot_name with the fixed artifact label hist; and two
successful invocations of the same instance under different context
labels produce disjoint output-key sets (the artifact label hist contains
no underscore, so the context label is recoverable from the key).
Invocations differing in instance name may collide when the names contain
underscores — see the counterexample. -/
theorem c7_output_keys_amended :
    (∀ (name pfx : String) (kwargs : AList PyData) (figs : Nat)
        (out : AList Figure),
      hist2dCall name pfx kwargs = (figs, .ok out) →
      akeys out = [makeFullPlotName name pfx ("hist")])
    ∧ (∀ (name pfx1 pfx2 : String) (kwargs1 kwargs2 : AList PyData)
        (figs1 figs2 : Nat) (out1 out2 : AList Figure),
      hist2dCall name pfx1 kwargs1 = (figs1, .ok out1) →
      hist2dCall name pfx2 kwargs2 = (figs2, .ok out2) →
      pfx1 ≠ pfx2 →
      ∀ k, k ∈ akeys out1 → ¬ k ∈ akeys out2) := by
  have hmain : ∀ (name pfx : String) (kwargs : AList PyData) (figs : Nat)
      (out : AList Figure),
      hist2dCall name pfx kwargs = (figs, .ok out) →
      akeys out = [makeFullPlotName name pfx ("hist")] := by
    intro name pfx kwargs figs out h
    have hcall : hist2dCall name pfx kwargs = hist2dMakePlots name pfx kwargs := rfl
    rw [hcall] at h
    cases h1 : alookup kwargs ("truth") with
    | none =>
        have hmk : hist2dMakePlots name pfx kwargs
            = (1, .error (.keyLookup ("truth"))) := by
          simp [hist2dMakePlots, makeHist2dPlot, h1]
        rw [hmk] at h
        simp at h
    | some tv =>
        cases h2 : alookup kwargs ("pointEstimate") with
        | none =>
            have hmk : hist2dMakePlots name pfx kwargs
                = (1, .error (.keyLookup ("pointEstimate"))) := by
              simp [hist2dMakePlots, makeHist2dPlot, h1, h2]
            rw [hmk] at h
            simp at h
        | some pv =>
            have hmk : hist2dMakePlots name pfx kwargs
                = (1, .ok [(makeFullPlotName name pfx ("hist"), 0)]) := by
              simp [hist2dMakePlots, makeHist2dPlot, h1, h2]
            rw [hmk] at h
            have hout : [(makeFullPlotName name pfx ("hist"), (0 : Figure))] = out := by
              have hsnd := congrArg Prod.snd h
              simpa using hsnd
            rw [← hout]
            rfl
  refine ⟨hmain, ?_⟩
  intro name pfx1 pfx2 kwargs1 kwargs2 figs1 figs2 out1 out2 hc1 hc2 hne k hk1 hk2
  rw [hmain name pfx1 kwargs1 figs1 out1 hc1] at hk1
  rw [hmain name pfx2 kwargs2 figs2 out2 hc2] at hk2
  simp at hk1 hk2
  have heq : makeFullPlotName name pfx1 ("hist") = makeFullPlotName name pfx2 ("hist") := by
    rw [← hk1, ← hk2]
  have hhist : ¬ '_' ∈ ("hist" : String).data := by decide
  exact hne (makeFullPlotName_inj name pfx1 pfx2 "hist" "hist" hhist hhist heq).1

/-- Witness for c7_output_keys_amended at concrete inputs: the instance x
under context c yields exactly the key given by _make_full_plot_name, and
the key produced under context c1 does not occur among the keys produced
by the same instance under context c2. -/
theorem c7_output_keys_amended_witness :
    akeys [(("x_c_hist" : String), (0 : Figure))]
        = [makeFullPlotName "x" "c" ("hist")]
    ∧ ¬ ("x_c1_hist" : String) ∈ akeys [(("x_c2_hist" : String), (0 : Figure))] := by
  constructor
  · exact c7_output_keys_amended.1 "x" "c"
      [("truth", .pyArray []), ("pointEstimate", .pyArray [])]
      1 [("x_c_hist", 0)] rfl
  · exact c7_output_keys_amended.2 "x" "c1" "c2"
      [("truth", .pyArray []), ("pointEstimate", .pyArray [])]
      [("truth", .pyArray []), ("pointEstimate", .pyArray [])]
      1 1 [("x_c1_hist", 0)] [("x_c2_hist", 0)] rfl rfl
      (by decide) "x_c1_hist" (by decide)

end RailPlotting
namespace RailPlotting

/-
Supporting lemmas about _set_config.
-/

theorem apop_frame {α : Type} (k : String) (v : α) :
    ∀ m : AList α, alookup m k = some v →
      ∃ m2, apop m k = some (v, m2)
        ∧ (∀ k2, k2 ≠ k → alookup m2 k2 = alookup m k2) := by
  intro m
  induction m with
  | nil => intro h; simp [alookup] at h
  | cons kv rest ih =>
      intro h
      obtain ⟨k0, v0⟩ := kv
      by_cases he : k0 = k
      · subst he
        simp [alookup] at h
        subst h
        refine ⟨rest, by simp [apop], ?_⟩
        intro k2 hne
        have h2 : ¬ k0 = k2 := fun hh => hne hh.symm
        simp [alookup, h2]
      · have h2 : alookup rest k = some v := by simpa [alookup, he] using h
        obtain ⟨m2, hpop, hframe⟩ := ih h2
        refine ⟨(k0, v0) :: m2, by simp [apop, he, hpop], ?_⟩
        intro k2 hne
        by_cases h1 : k0 = k2
        · simp [alookup, h1]
        · simp [alookup, h1, hframe k2 hne]

/-- Failure case of the _set_config loop: the first declared key that is
required and unsupplied raises ValueError naming it, whatever comes
after it. -/
theorem setConfigLoop_missing (kwargs : AList PyData) :
    ∀ (pre : List (String × StageParam)) (key : String) (attr : StageParam)
      (post : List (String × StageParam)) (kwcopy config : AList PyData),
      attr.required = true → alookup kwargs key = none →
      (∀ p ∈ pre, alookup kwcopy p.1 = alookup kwargs p.1) →
      (∀ p ∈ pre, p.2.required = true → (alookup kwargs p.1).isSome) →
      ((pre ++ (key, attr) :: post).map Prod.fst).Nodup →
      setConfigLoop kwargs (pre ++ (key, attr) :: post) kwcopy config
        = .error (.missingConfig key) := by
  intro pre
  induction pre with
  | nil =>
      intro key attr post kwcopy config hreq hnone _ _ _
      simp [setConfigLoop, hnone, hreq]
  | cons p0 pres ih =>
      intro key attr post kwcopy config hreq hnone hagree hsup hnd
      obtain ⟨k0, a0⟩ := p0
      have hnd2 : ¬ k0 ∈ ((pres ++ (key, attr) :: post).map Prod.fst)
          ∧ ((pres ++ (key, attr) :: post).map Prod.fst).Nodup := by
        have h := hnd
        rw [List.cons_append, List.map_cons] at h
        exact List.nodup_cons.mp h
      rw [List.cons_append]
      cases h0 : alookup kwargs k0 with
      | some v =>
          have hk : alookup kwcopy k0 = some v := by
            rw [hagree (k0, a0) (List.mem_cons_self _ _)]
            exact h0
          obtain ⟨kw2, hpop, hframe⟩ := apop_frame k0 v kwcopy hk
          have hstep : setConfigLoop kwargs
              ((k0, a0) :: (pres ++ (key, attr) :: post)) kwcopy config
              = setConfigLoop kwargs (pres ++ (key, attr) :: post) kw2
                  (aset config k0 v) := by
            simp [setConfigLoop, h0, hpop]
          rw [hstep]
          refine ih key attr post kw2 (aset config k0 v) hreq hnone ?_ ?_ hnd2.2
          · intro p hp
            have hpne : p.1 ≠ k0 := by
              intro hx
              exact hnd2.1
                (hx ▸ List.mem_map_of_mem Prod.fst (List.mem_append_left _ hp))
            rw [hframe p.1 hpne]
            exact hagree p (List.mem_cons_of_mem _ hp)
          · intro p hp
            exact hsup p (List.mem_cons_of_mem _ hp)
      | none =>
          have hnr : a0.required = false := by
            cases hr : a0.required
            · rfl
            · have hs := hsup (k0, a0) (List.mem_cons_self _ _) hr
              rw [h0] at hs
              simp at hs
          have hstep : setConfigLoop kwargs
              ((k0, a0) :: (pres ++ (key, attr) :: post)) kwcopy config
              = setConfigLoop kwargs (pres ++ (key, attr) :: post) kwcopy
                  (aset config k0 a0.default) := by
            simp [setConfigLoop, h0, hnr]
          rw [hstep]
          refine ih key attr post kwcopy (aset config k0 a0.default)
            hreq hnone ?_ ?_ hnd2.2
          · intro p hp
            exact hagree p (List.mem_cons_of_mem _ hp)
          · intro p hp
            exact hsup p (List.mem_cons_of_mem _ hp)

/-- Success case of the _set_config loop: with every required key
supplied, the loop returns the config assigning each declared key its
supplied value or default, and the kwcopy remainder drops exactly the
supplied declared keys. -/
theorem setConfigLoop_ok (kwargs : AList PyData) :
    ∀ (decl : List (String × StageParam)) (kwcopy config : AList PyData),
      (decl.map Prod.fst).Nodup →
      (akeys kwcopy).Nodup →
      (∀ p ∈ decl, alookup kwcopy p.1 = alookup kwargs p.1) →
      (∀ p ∈ decl, p.2.required = true → (alookup kwargs p.1).isSome) →
      ∃ config2 kwcopy2,
        setConfigLoop kwargs decl kwcopy config = .ok (config2, kwcopy2)
        ∧ (∀ p ∈ decl, alookup config2 p.1
            = some ((alookup kwargs p.1).getD p.2.default))
        ∧ (∀ k, ¬ k ∈ decl.map Prod.fst → alookup config2 k = alookup config k)
        ∧ akeys kwcopy2 = (akeys kwcopy).filter
            (fun x => decide (¬ (x ∈ decl.map Prod.fst
              ∧ (alookup kwargs x).isSome))) := by
  intro decl
  induction decl with
  | nil =>
      intro kwcopy config _ _ _ _
      refine ⟨config, kwcopy, by simp [setConfigLoop], by simp, ?_, ?_⟩
      · intro k _
        rfl
      · refine (List.filter_eq_self.mpr ?_).symm
        intro x _
        simp
  | cons p0 pres ih =>
      intro kwcopy config hndd hndk hagree hsup
      obtain ⟨k0, a0⟩ := p0
      have hnd2 : ¬ k0 ∈ pres.map Prod.fst ∧ (pres.map Prod.fst).Nodup := by
        have h := hndd
        rw [List.map_cons] at h
        exact List.nodup_cons.mp h
      cases h0 : alookup kwargs k0 with
      | some v =>
          have hk : alookup kwcopy k0 = some v := by
            rw [hagree (k0, a0) (List.mem_cons_self _ _)]
            exact h0
          obtain ⟨kw2, hpop, hframe, hkeys⟩ := apop_spec k0 v kwcopy hndk hk
          have hndk2 : (akeys kw2).Nodup := by
            rw [hkeys]
            exact List.Nodup.filter _ hndk
          have hagree2 : ∀ p ∈ pres, alookup kw2 p.1 = alookup kwargs p.1 := by
            intro p hp
            have hpne : p.1 ≠ k0 := fun hx =>
              hnd2.1 (hx ▸ List.mem_map_of_mem Prod.fst hp)
            rw [hframe p.1 hpne]
            exact hagree p (List.mem_cons_of_mem _ hp)
          obtain ⟨config2, kwcopy2, hloop, hvals, hcf, hkw2keys⟩ :=
            ih kw2 (aset config k0 v) hnd2.2 hndk2 hagree2
              (fun p hp hr => hsup p (List.mem_cons_of_mem _ hp) hr)
          have hstep : setConfigLoop kwargs ((k0, a0) :: pres) kwcopy config
              = setConfigLoop kwargs pres kw2 (aset config k0 v) := by
            simp [setConfigLoop, h0, hpop]
          refine ⟨config2, kwcopy2, by rw [hstep]; exact hloop, ?_, ?_, ?_⟩
          · intro p hp
            rcases List.mem_cons.mp hp with hp0 | hpr
            · rw [hp0]
              show alookup config2 k0 = some ((alookup kwargs k0).getD a0.default)
              rw [hcf k0 hnd2.1, alookup_aset_self, h0]
              rfl
            · exact hvals p hpr
          · intro k hk
            rw [List.map_cons] at hk
            have hkne : k ≠ k0 := fun hx => hk (hx ▸ List.mem_cons_self _ _)
            have hknr : ¬ k ∈ pres.map Prod.fst :=
              fun hx => hk (List.mem_cons_of_mem _ hx)
            rw [hcf k hknr, alookup_aset_ne config k0 k v hkne]
          · rw [hkw2keys, hkeys, List.filter_filter]
            refine List.filter_congr ?_
            intro x _
            by_cases hx : x = k0
            · subst hx
              simp [h0]
            · have hb : (x == k0) = false := by simpa using hx
              simp [hx, hb]
      | none =>
          have hnr : a0.required = false := by
            cases hr : a0.required
            · rfl
            · have hs := hsup (k0, a0) (List.mem_cons_self _ _) hr
              rw [h0] at hs
              simp at hs
          have hagree2 : ∀ p ∈ pres, alookup kwcopy p.1 = alookup kwargs p.1 :=
            fun p hp => hagree p (List.mem_cons_of_mem _ hp)
          obtain ⟨config2, kwcopy2, hloop, hvals, hcf, hkw2keys⟩ :=
            ih kwcopy (aset config k0 a0.default) hnd2.2 hndk hagree2
              (fun p hp hr => hsup p (List.mem_cons_of_mem _ hp) hr)
          have hstep : setConfigLoop kwargs ((k0, a0) :: pres) kwcopy config
              = setConfigLoop kwargs pres kwcopy (aset config k0 a0.default) := by
            simp [setConfigLoop, h0, hnr]
          refine ⟨config2, kwcopy2, by rw [hstep]; exact hloop, ?_, ?_, ?_⟩
          · intro p hp
            rcases List.mem_cons.mp hp with hp0 | hpr
            · rw [hp0]
              show alookup config2 k0 = some ((alookup kwargs k0).getD a0.default)
              rw [hcf k0 hnd2.1, alookup_aset_self, h0]
              rfl
            · exact hvals p hpr
          · intro k hk
            rw [List.map_cons] at hk
            have hkne : k ≠ k0 := fun hx => hk (hx ▸ List.mem_cons_self _ _)
            have hknr : ¬ k ∈ pres.map Prod.fst :=
              fun hx => hk (List.mem_cons_of_mem _ hx)
            rw [hcf k hknr, alookup_aset_ne config k0 k a0.default hkne]
          · rw [hkw2keys]
            refine List.filter_congr ?_
            intro x _
            by_cases hx : x = k0
            · subst hx
              simp [h0]
            · have hb : (x == k0) = false := by simpa using hx
              simp [hx, hb]

/-- Theorem for claim C6.  For _set_config over the declared options (keys
without duplicates, as Python dict literals guarantee): a required key
with no supplied value raises the ValueError missing-configuration error
naming it; with every required key supplied, any caller-supplied key
absent from the schema raises the ValueError unrecognized-configuration
error listing exactly the offending keys, and otherwise construction
succeeds with every declared key reporting the caller-supplied value if
present and its declared default otherwise (in particular all unsupplied
optional keys report their defaults). -/
theorem c6_set_config (decl : List (String × StageParam)) (kwargs : AList PyData)
    (hndd : (decl.map Prod.fst).Nodup) (hndk : (akeys kwargs).Nodup) :
    (∀ (pre : List (String × StageParam)) (key : String) (attr : StageParam)
        (post : List (String × StageParam)),
      decl = pre ++ (key, attr) :: post →
      attr.required = true → alookup kwargs key = none →
      (∀ p ∈ pre, p.2.required = true → (alookup kwargs p.1).isSome) →
      setConfig decl kwargs = .error (.missingConfig key))
    ∧ ((∀ p ∈ decl, p.2.required = true → (alookup kwargs p.1).isSome) →
      (((akeys kwargs).filter (fun x => decide (¬ x ∈ decl.map Prod.fst))) ≠ [] →
        setConfig decl kwargs = .error (.unrecognizedConfig
          ((akeys kwargs).filter (fun x => decide (¬ x ∈ decl.map Prod.fst)))))
      ∧ (((akeys kwargs).filter (fun x => decide (¬ x ∈ decl.map Prod.fst))) = [] →
        ∃ config, setConfig decl kwargs = .ok config
          ∧ ∀ p ∈ decl, alookup config p.1
              = some ((alookup kwargs p.1).getD p.2.default))) := by
  constructor
  · intro pre key attr post hdecl hreq hnone hsup
    subst hdecl
    have hloop := setConfigLoop_missing kwargs pre key attr post kwargs []
      hreq hnone (fun p _ => rfl) hsup hndd
    simp [setConfig, hloop]
  · intro hsup
    obtain ⟨config2, kwcopy2, hloop, hvals, _, hkeys⟩ :=
      setConfigLoop_ok kwargs decl kwargs [] hndd hndk (fun p _ => rfl) hsup
    have hkeys2 : akeys kwcopy2
        = (akeys kwargs).filter (fun x => decide (¬ x ∈ decl.map Prod.fst)) := by
      rw [hkeys]
      refine List.filter_congr ?_
      intro x hx
      have hsx : (alookup kwargs x).isSome = true := (alookup_isSome_iff kwargs x).mpr hx
      simp [hsx]
    constructor
    · intro hne
      have hkw2ne : kwcopy2 ≠ [] := by
        intro hnil
        rw [hnil] at hkeys2
        exact hne (by simpa [akeys_nil] using hkeys2.symm)
      have hie : kwcopy2.isEmpty = false := by
        cases kwcopy2 with
        | nil => exact absurd rfl hkw2ne
        | cons a l => rfl
      simp [setConfig, hloop, hie, hkeys2]
    · intro hempty
      have hkw2 : kwcopy2 = [] := by
        rw [hempty] at hkeys2
        cases kwcopy2 with
        | nil => rfl
        | cons a l => simp [akeys] at hkeys2
      refine ⟨config2, ?_, hvals⟩
      simp [setConfig, hloop, hkw2]

/-- Witness for c6_set_config at concrete inputs: the 2D-histogram
plotter options with z_min supplied succeed reporting the supplied value
and the defaults for the rest; a required option with nothing supplied
raises the missing-configuration ValueError; an undeclared key raises the
unrecognized-configuration ValueError listing it. -/
theorem c6_set_config_witness :
    (∃ config, setConfig hist2dClass.configOptions
        [("z_min", PyData.pyFloat "0.5")] = .ok config
      ∧ ∀ p ∈ hist2dClass.configOptions, alookup config p.1
          = some ((alookup [("z_min", PyData.pyFloat "0.5")] p.1).getD p.2.default))
    ∧ setConfig [("bins", { required := true, default := PyData.pyNone })] []
        = .error (.missingConfig ("bins"))
    ∧ setConfig hist2dClass.configOptions [("bogus", PyData.pyInt 1)]
        = .error (.unrecognizedConfig ["bogus"]) := by
  refine ⟨?_, ?_, ?_⟩
  · exact ((c6_set_config hist2dClass.configOptions
      [("z_min", PyData.pyFloat "0.5")] (by decide) (by decide)).2
        (by decide)).2 (by decide)
  · exact (c6_set_config [("bins", { required := true, default := PyData.pyNone })]
      [] (by decide) (by decide)).1 []
      "bins" { required := true, default := PyData.pyNone } [] rfl rfl rfl
      (by simp)
  · have h := ((c6_set_config hist2dClass.configOptions
      [("bogus", PyData.pyInt 1)] (by decide) (by decide)).2 (by decide)).1
      (by decide)
    have h2 : (akeys [("bogus", PyData.pyInt 1)]).filter
        (fun x => decide (¬ x ∈ hist2dClass.configOptions.map Prod.fst))
        = ["bogus"] := by decide
    rw [h2] at h
    exact h

end RailPlotting
